import Mathlib

/-!
Verification of the ISS streaming-analysis pipeline: a shallow embedding of
the data fetcher (`iss_data_fetcher.py`), the stream generator
(`iss_data_generator.py`) and the Spark processing/aggregation stage
(`iss_spark_streaming.py`), together with proofs of the specified
properties.  Python floats are modelled as real numbers; epoch timestamps
as integers.
-/

namespace ISS

noncomputable section

/-- Rounding to `n` decimal places, modelling Python's `round(x, n)` and
Spark's `round` (ties, which differ between the two, are immaterial here:
we use Mathlib's `round`, half-up). -/
def roundTo (n : ℕ) (x : ℝ) : ℝ := ((round (x * 10 ^ n) : ℤ) : ℝ) / 10 ^ n

/-- Degrees to radians, modelling `math.radians`. -/
def radians (x : ℝ) : ℝ := x * Real.pi / 180

/-- Two-argument arctangent, modelling `math.atan2(y, x)`. -/
def atan2 (y x : ℝ) : ℝ :=
  if 0 < x then Real.arctan (y / x)
  else if x < 0 then
    if 0 ≤ y then Real.arctan (y / x) + Real.pi
    else Real.arctan (y / x) - Real.pi
  else
    if 0 < y then Real.pi / 2
    else if y < 0 then -(Real.pi / 2)
    else 0

/-- The intermediate `a` term of the haversine formula, as computed in
`ISSDataFetcher.calculate_velocity` and `ISSDataGenerator.distance_to_paris`:
`a = sin(dlat/2)**2 + cos(lat1) * cos(lat2) * sin(dlon/2)**2`. -/
def hav_a (lat1 lon1 lat2 lon2 : ℝ) : ℝ :=
  Real.sin ((radians lat2 - radians lat1) / 2) ^ 2 +
    Real.cos (radians lat1) * Real.cos (radians lat2) *
      Real.sin ((radians lon2 - radians lon1) / 2) ^ 2

/-- Haversine great-circle distance with Earth radius `R = 6371` km:
`c = 2 * atan2(sqrt(a), sqrt(1-a)); distance = R * c`, shared by
`calculate_velocity` and `distance_to_paris`. -/
def haversine (lat1 lon1 lat2 lon2 : ℝ) : ℝ :=
  6371 * (2 * atan2 (Real.sqrt (hav_a lat1 lon1 lat2 lon2))
    (Real.sqrt (1 - hav_a lat1 lon1 lat2 lon2)))

/-- `ISSDataFetcher.calculate_velocity`: haversine distance divided by the
elapsed time, `0.0` when the elapsed time is not positive. -/
def calculate_velocity (lat1 lon1 lat2 lon2 time_diff : ℝ) : ℝ :=
  if 0 < time_diff then haversine lat1 lon1 lat2 lon2 / time_diff else 0

/-- `ISSDataGenerator.distance_to_paris`: haversine distance from the sample
to the instance's reference coordinate, rounded to 2 decimal places. -/
def distance_to_paris (lat lon paris_lat paris_lon : ℝ) : ℝ :=
  roundTo 2 (haversine lat lon paris_lat paris_lon)

/-- The reference latitude set in `ISSDataGenerator.__init__`. -/
def paris_lat : ℝ := 48.8566

/-- The reference longitude set in `ISSDataGenerator.__init__`. -/
def paris_lon : ℝ := 2.3522

/-- Orbit phase classification written by the generator. -/
inductive OrbitPhase where
  | ASCENDING
  | DESCENDING
  | UNKNOWN
deriving DecidableEq

/-- North/South hemisphere flag added by `process_stream`. -/
inductive HemisphereNS where
  | North
  | South
deriving DecidableEq

/-- East/West hemisphere flag added by `process_stream`. -/
inductive HemisphereEW where
  | East
  | West
deriving DecidableEq

/-- A raw position sample as returned by `ISSDataFetcher.fetch_position`. -/
structure RawPosition where
  latitude : ℝ
  longitude : ℝ
  timestamp : ℤ
  fetch_time : String
  altitude_km : ℝ

/-- A sample after the generator has added its derived fields. -/
structure EnrichedRecord where
  latitude : ℝ
  longitude : ℝ
  timestamp : ℤ
  fetch_time : String
  altitude_km : ℝ
  velocity_km_s : ℝ
  orbit_phase : OrbitPhase
  distance_to_paris_km : ℝ

/-- The enrichment step of `ISSDataGenerator.generate_stream`, as a pure
function of the stored previous position and the freshly fetched one:
orbit phase from the latitude comparison, velocity from
`calculate_velocity` rounded to 4 decimals (zero with no prior), and the
rounded distance to the reference coordinate. -/
def enrich (plat plon : ℝ) (previous_position : Option EnrichedRecord)
    (position : RawPosition) : EnrichedRecord :=
  { latitude := position.latitude
    longitude := position.longitude
    timestamp := position.timestamp
    fetch_time := position.fetch_time
    altitude_km := position.altitude_km
    orbit_phase :=
      match previous_position with
      | none => OrbitPhase.UNKNOWN
      | some prev =>
        if prev.latitude < position.latitude then OrbitPhase.ASCENDING
        else OrbitPhase.DESCENDING
    velocity_km_s :=
      match previous_position with
      | none => 0
      | some prev =>
        roundTo 4 (calculate_velocity prev.latitude prev.longitude
          position.latitude position.longitude
          ((position.timestamp - prev.timestamp : ℤ) : ℝ))
    distance_to_paris_km := distance_to_paris position.latitude position.longitude plat plon }

/-- Mutable state of `ISSDataGenerator.generate_stream`: the previous
position slot, the processed-points counter and the files written so far
(filename paired with content). -/
structure GenState where
  previous_position : Option EnrichedRecord
  data_points : ℕ
  files : List (String × EnrichedRecord)

/-- The generator state at the start of a session. -/
def initGen : GenState := { previous_position := none, data_points := 0, files := [] }

/-- Output filename `iss_data_<timestamp>.json`. -/
def iss_filename (now : String) : String := "iss_data_" ++ now ++ ".json"

/-- One iteration of the `generate_stream` polling loop: on a successful
fetch, enrich the sample, write it as a new file, bump the counter and
store it as the new previous position; on a failed fetch (`None`), do
nothing. `now` is the wall-clock string used only for the filename. -/
def generate_stream_step (plat plon : ℝ) (st : GenState) (now : String)
    (fetched : Option RawPosition) : GenState :=
  match fetched with
  | none => st
  | some position =>
    { previous_position := some (enrich plat plon st.previous_position position)
      data_points := st.data_points + 1
      files := st.files ++ [(iss_filename now, enrich plat plon st.previous_position position)] }

/-- A record after `ISSSparkStreaming.process_stream`: event time taken from
the epoch timestamp, hemisphere flags from the coordinate signs, and
coordinates/velocity rounded to 4 decimals. -/
structure ProcessedRecord where
  event_time : ℤ
  latitude : ℝ
  longitude : ℝ
  fetch_time : String
  altitude_km : ℝ
  velocity_km_s : ℝ
  orbit_phase : OrbitPhase
  distance_to_paris_km : ℝ
  hemisphere_ns : HemisphereNS
  hemisphere_ew : HemisphereEW

/-- `ISSSparkStreaming.process_stream` applied to one record. -/
def process_stream_record (r : EnrichedRecord) : ProcessedRecord :=
  { event_time := r.timestamp
    latitude := roundTo 4 r.latitude
    longitude := roundTo 4 r.longitude
    fetch_time := r.fetch_time
    altitude_km := r.altitude_km
    velocity_km_s := roundTo 4 r.velocity_km_s
    orbit_phase := r.orbit_phase
    distance_to_paris_km := r.distance_to_paris_km
    hemisphere_ns := if r.latitude ≥ 0 then HemisphereNS.North else HemisphereNS.South
    hemisphere_ew := if r.longitude ≥ 0 then HemisphereEW.East else HemisphereEW.West }

/-- Outcome of one HTTP attempt inside `ISSDataFetcher.fetch_position`:
a successful response with `message == 'success'`, a successful response
without it, or a raised `requests.RequestException`. -/
inductive FetchOutcome where
  | ok (p : RawPosition)
  | notSuccess
  | requestError

/-- The retry loop of `ISSDataFetcher.fetch_position` over the remaining
attempts' outcomes, also collecting the backoff sleeps (`2 ** attempt`
seconds, slept only between failed attempts).  Returns `none` once all
attempts are exhausted. -/
def fetch_attempts : ℕ → List FetchOutcome → Option RawPosition × List ℕ
  | _, [] => (none, [])
  | _, FetchOutcome.ok p :: _ => (some p, [])
  | attempt, FetchOutcome.notSuccess :: rest => fetch_attempts (attempt + 1) rest
  | attempt, FetchOutcome.requestError :: rest =>
    if rest.isEmpty then (none, [])
    else ((fetch_attempts (attempt + 1) rest).1,
      2 ^ attempt :: (fetch_attempts (attempt + 1) rest).2)

/-- `ISSDataFetcher.fetch_position` with `max_retries` attempts, the
environment's behaviour on attempt `i` given by `oracle i`. -/
def fetch_position (max_retries : ℕ) (oracle : ℕ → FetchOutcome) :
    Option RawPosition × List ℕ :=
  fetch_attempts 0 ((List.range max_retries).map oracle)

/-- The default `max_retries` of `ISSDataFetcher.__init__`. -/
def default_max_retries : ℕ := 3

end

/-! ### Windowed aggregation

The watermark/window machinery configured by
`ISSSparkStreaming.compute_statistics` (`withWatermark("event_time", "10
seconds")`, `window(col("event_time"), "1 minute")`, append output mode)
is executed by the host streaming engine; the state machine below follows
the explicit description in the specification. -/

noncomputable section

/-- A processed record as seen by the aggregator: its event time and the
fields aggregated by `compute_statistics`. -/
structure Ev where
  event_time : ℤ
  latitude : ℝ
  longitude : ℝ
  velocity_km_s : ℝ

/-- Modelled from the spec: the in-flight accumulator of one window —
count, running sums, running max/min, running sum of squares; the engine's
internal per-window aggregation state is not part of this repository. -/
structure Accum where
  count : ℕ
  sum_lat : ℝ
  sum_lon : ℝ
  sum_vel : ℝ
  max_vel : ℝ
  min_vel : ℝ
  sum_sq_vel : ℝ

/-- The accumulator created by the first record of a window. -/
def initAccum (e : Ev) : Accum :=
  ⟨1, e.latitude, e.longitude, e.velocity_km_s, e.velocity_km_s, e.velocity_km_s,
    e.velocity_km_s ^ 2⟩

/-- Folding one additional record into a window's accumulator. -/
def addToAccum (a : Accum) (e : Ev) : Accum :=
  ⟨a.count + 1, a.sum_lat + e.latitude, a.sum_lon + e.longitude,
    a.sum_vel + e.velocity_km_s, max a.max_vel e.velocity_km_s,
    min a.min_vel e.velocity_km_s, a.sum_sq_vel + e.velocity_km_s ^ 2⟩

/-- The per-window statistics row produced by `compute_statistics`. -/
structure WindowStats where
  window_start : ℤ
  window_end : ℤ
  data_points : ℕ
  avg_latitude : ℝ
  avg_longitude : ℝ
  avg_velocity : ℝ
  max_velocity : ℝ
  min_velocity : ℝ
  velocity_stddev : ℝ

/-- Finalising a closed window's accumulator into its statistics row, all
aggregates rounded to 4 decimals; the sample standard deviation of a
single-point window is 0. -/
def mkStats (k : ℤ) (a : Accum) : WindowStats :=
  { window_start := k
    window_end := k + 60
    data_points := a.count
    avg_latitude := roundTo 4 (a.sum_lat / a.count)
    avg_longitude := roundTo 4 (a.sum_lon / a.count)
    avg_velocity := roundTo 4 (a.sum_vel / a.count)
    max_velocity := roundTo 4 a.max_vel
    min_velocity := roundTo 4 a.min_vel
    velocity_stddev := if a.count ≤ 1 then 0
      else roundTo 4 (Real.sqrt ((a.sum_sq_vel - a.sum_vel ^ 2 / a.count) / (a.count - 1))) }

/-- The start of the 60-second tumbling window holding event time `t`
(floor division: `⌊t / 60⌋ * 60`). -/
def windowStart (t : ℤ) : ℤ := t / 60 * 60

/-- Update (or create) the accumulator keyed by window start `k`. -/
def updateAccums : List (ℤ × Accum) → ℤ → Ev → List (ℤ × Accum)
  | [], k, e => [(k, initAccum e)]
  | (k0, a) :: rest, k, e =>
    if k0 = k then (k0, addToAccum a e) :: rest
    else (k0, a) :: updateAccums rest k e

/-- Modelled from the spec: the aggregator's state — the maximum observed
event time (from which the watermark is `maxSeen - 10`), the in-flight
accumulators keyed by window start, and the late-drop counter. -/
structure AggState where
  maxSeen : Option ℤ
  accums : List (ℤ × Accum)
  lateDrops : ℕ

/-- The aggregator state before any record has arrived. -/
def initAgg : AggState := ⟨none, [], 0⟩

/-- The maximum observed event time after a record with event time `t`. -/
def newMax (s : AggState) (t : ℤ) : ℤ :=
  match s.maxSeen with
  | none => t
  | some m => max m t

/-- The accumulators after absorbing one record: a record whose window has
already closed under the advanced watermark is dropped, otherwise its
window's accumulator is updated or created. -/
def stepAccums (s : AggState) (e : Ev) : List (ℤ × Accum) :=
  if windowStart e.event_time + 60 ≤ newMax s e.event_time - 10 then s.accums
  else updateAccums s.accums (windowStart e.event_time) e

/-- Modelled from the spec: one aggregator step — advance the watermark to
`max(maxSeen, t) - 10`, drop-or-accumulate the record, then emit (and
free) every accumulator whose window end is at most the watermark. -/
def stepAgg (s : AggState) (e : Ev) : AggState × List WindowStats :=
  ({ maxSeen := some (newMax s e.event_time)
     accums := (stepAccums s e).filter
       (fun p => decide (¬ (p.1 + 60 ≤ newMax s e.event_time - 10)))
     lateDrops := s.lateDrops +
       (if windowStart e.event_time + 60 ≤ newMax s e.event_time - 10 then 1 else 0) },
   ((stepAccums s e).filter
       (fun p => decide (p.1 + 60 ≤ newMax s e.event_time - 10))).map
     (fun p => mkStats p.1 p.2))

/-- Running the aggregator over a record trace, collecting the emitted
statistics rows in order. -/
def runAgg : AggState → List Ev → AggState × List WindowStats
  | s, [] => (s, [])
  | s, e :: rest =>
    ((runAgg (stepAgg s e).1 rest).1, (stepAgg s e).2 ++ (runAgg (stepAgg s e).1 rest).2)

end

/-- The aggregator's state invariant: accumulator keys are distinct, and
every in-flight window is still open with respect to the watermark. -/
def AggInv (s : AggState) : Prop :=
  (s.accums.map Prod.fst).Nodup ∧
  ∀ k ∈ s.accums.map Prod.fst, ∀ m : ℤ, s.maxSeen = some m → m - 10 < k + 60

/-! ### Helper lemmas for the haversine formula -/

theorem sin_half_sub_sq (a b : ℝ) :
    Real.sin ((a - b) / 2) ^ 2 = Real.sin ((b - a) / 2) ^ 2 := by
  rw [show (a - b) / 2 = -((b - a) / 2) by ring, Real.sin_neg, neg_sq]

theorem hav_a_symm (lat1 lon1 lat2 lon2 : ℝ) :
    hav_a lat1 lon1 lat2 lon2 = hav_a lat2 lon2 lat1 lon1 := by
  unfold hav_a
  rw [sin_half_sub_sq (radians lat2) (radians lat1),
    sin_half_sub_sq (radians lon2) (radians lon1)]
  ring

theorem hav_a_self (lat lon : ℝ) : hav_a lat lon lat lon = 0 := by
  simp [hav_a]

theorem haversine_symm (lat1 lon1 lat2 lon2 : ℝ) :
    haversine lat1 lon1 lat2 lon2 = haversine lat2 lon2 lat1 lon1 := by
  unfold haversine
  rw [hav_a_symm]

theorem atan2_zero_one : atan2 0 1 = 0 := by
  simp [atan2]

theorem haversine_self (lat lon : ℝ) : haversine lat lon lat lon = 0 := by
  simp [haversine, hav_a_self, atan2_zero_one]

theorem roundTo_zero (n : ℕ) : roundTo n 0 = 0 := by
  simp [roundTo]

/-- Claim C5: the haversine distance function is symmetric in its two
positions, and the distance from any position to itself is zero. -/
theorem haversine_symm_and_self_zero :
    (∀ lat1 lon1 lat2 lon2 : ℝ,
      haversine lat1 lon1 lat2 lon2 = haversine lat2 lon2 lat1 lon1) ∧
    (∀ lat lon : ℝ, haversine lat lon lat lon = 0) :=
  ⟨haversine_symm, haversine_self⟩

/-! ### Enrichment properties -/

/-- Claim C2: with a prior sample present, the enriched velocity is the
haversine distance between the two positions divided by the event-time
difference, rounded to 4 decimal places, whenever that difference is
positive; whenever the elapsed time is zero or negative the velocity is
`0.0`. -/
theorem velocity_enrichment_correct (plat plon : ℝ) (prev : EnrichedRecord)
    (pos : RawPosition) :
    (0 < pos.timestamp - prev.timestamp →
      (enrich plat plon (some prev) pos).velocity_km_s =
        roundTo 4 (haversine prev.latitude prev.longitude pos.latitude pos.longitude /
          ((pos.timestamp - prev.timestamp : ℤ) : ℝ))) ∧
    (pos.timestamp - prev.timestamp ≤ 0 →
      (enrich plat plon (some prev) pos).velocity_km_s = 0) := by
  constructor
  · intro h
    simp only [enrich, calculate_velocity]
    rw [if_pos (by exact_mod_cast h)]
  · intro h
    simp only [enrich, calculate_velocity]
    rw [if_neg (by exact_mod_cast not_lt.mpr h), roundTo_zero]

/-- A stored previous record used by concrete witnesses. -/
def prevW : EnrichedRecord :=
  { latitude := 0, longitude := 0, timestamp := 0, fetch_time := "t0"
    altitude_km := 408, velocity_km_s := 0, orbit_phase := OrbitPhase.UNKNOWN
    distance_to_paris_km := 0 }

/-- A fetched sample 10 seconds after `prevW` at the same position. -/
def posW1 : RawPosition :=
  { latitude := 0, longitude := 0, timestamp := 10, fetch_time := "t1", altitude_km := 408 }

/-- A fetched sample with the same timestamp as `prevW`. -/
def posW2 : RawPosition :=
  { latitude := 0, longitude := 0, timestamp := 0, fetch_time := "t2", altitude_km := 408 }

theorem velocity_enrichment_correct_witness :
    (enrich 0 0 (some prevW) posW1).velocity_km_s = 0 ∧
    (enrich 0 0 (some prevW) posW2).velocity_km_s = 0 := by
  constructor
  · rw [(velocity_enrichment_correct 0 0 prevW posW1).1 (by decide)]
    rw [show prevW.latitude = 0 from rfl, show prevW.longitude = 0 from rfl,
      show posW1.latitude = 0 from rfl, show posW1.longitude = 0 from rfl,
      haversine_self, zero_div, roundTo_zero]
  · exact (velocity_enrichment_correct 0 0 prevW posW2).2 (by decide)

/-- Claim C3: starting from a fresh generator state (no previous sample),
the single record produced by the first successful poll has velocity `0.0`
and orbit phase `UNKNOWN`. -/
theorem first_record_zero_unknown (plat plon : ℝ) (now : String) (pos : RawPosition) :
    ((generate_stream_step plat plon initGen now (some pos)).files.map
      (fun f => (f.2.velocity_km_s, f.2.orbit_phase))) = [(0, OrbitPhase.UNKNOWN)] ∧
    (generate_stream_step plat plon initGen now (some pos)).previous_position =
      some (enrich plat plon none pos) := by
  constructor
  · simp [generate_stream_step, initGen, enrich]
  · simp [generate_stream_step, initGen]

/-- Claim C4: with a prior sample, the orbit phase is `ASCENDING` exactly
when the current latitude strictly exceeds the prior one and `DESCENDING`
otherwise (equality included); it is never `UNKNOWN` with a prior, and it
is always `UNKNOWN` without one. -/
theorem orbit_phase_classification (plat plon : ℝ) (prev : EnrichedRecord)
    (pos : RawPosition) :
    ((enrich plat plon (some prev) pos).orbit_phase = OrbitPhase.ASCENDING ↔
      prev.latitude < pos.latitude) ∧
    ((enrich plat plon (some prev) pos).orbit_phase = OrbitPhase.DESCENDING ↔
      ¬ prev.latitude < pos.latitude) ∧
    (enrich plat plon (some prev) pos).orbit_phase ≠ OrbitPhase.UNKNOWN ∧
    (∀ q : RawPosition, (enrich plat plon none q).orbit_phase = OrbitPhase.UNKNOWN) := by
  by_cases h : prev.latitude < pos.latitude <;>
    simp [enrich, h]

/-- A fetched sample strictly north of `prevW`. -/
def posW3 : RawPosition :=
  { latitude := 1, longitude := 0, timestamp := 10, fetch_time := "t3", altitude_km := 408 }

theorem orbit_phase_classification_witness :
    (enrich 0 0 (some prevW) posW3).orbit_phase = OrbitPhase.ASCENDING ∧
    (enrich 0 0 (some prevW) posW1).orbit_phase = OrbitPhase.DESCENDING :=
  ⟨(orbit_phase_classification 0 0 prevW posW3).1.mpr (by norm_num [prevW, posW3]),
   (orbit_phase_classification 0 0 prevW posW1).2.1.mpr (by norm_num [prevW, posW1])⟩

/-- Claim C6: the enriched reference distance is the haversine distance
from the sample to the instance's reference coordinate rounded to 2
decimal places, and with reference coordinate `(0,0)` a sample at `(0,0)`
yields distance `0.00`. -/
theorem distance_to_reference_correct (plat plon : ℝ)
    (prev : Option EnrichedRecord) (pos : RawPosition) :
    ((enrich plat plon prev pos).distance_to_paris_km =
      roundTo 2 (haversine pos.latitude pos.longitude plat plon)) ∧
    (∀ (q : Option EnrichedRecord) (t : ℤ) (ft : String) (alt : ℝ),
      (enrich 0 0 q ⟨0, 0, t, ft, alt⟩).distance_to_paris_km = 0) := by
  constructor
  · rfl
  · intro q t ft alt
    show distance_to_paris 0 0 0 0 = 0
    rw [distance_to_paris, haversine_self, roundTo_zero]

/-- Claim C8: after `process_stream`, the North/South flag is `North`
exactly when the latitude is nonnegative and the East/West flag is `East`
exactly when the longitude is nonnegative. -/
theorem hemisphere_classification (r : EnrichedRecord) :
    ((process_stream_record r).hemisphere_ns = HemisphereNS.North ↔ 0 ≤ r.latitude) ∧
    ((process_stream_record r).hemisphere_ns = HemisphereNS.South ↔ ¬ 0 ≤ r.latitude) ∧
    ((process_stream_record r).hemisphere_ew = HemisphereEW.East ↔ 0 ≤ r.longitude) ∧
    ((process_stream_record r).hemisphere_ew = HemisphereEW.West ↔ ¬ 0 ≤ r.longitude) := by
  by_cases h1 : 0 ≤ r.latitude <;> by_cases h2 : 0 ≤ r.longitude <;>
    simp [process_stream_record, ge_iff_le, h1, h2]

/-- An enriched record in the north-west quarter, used as a witness. -/
def recW : EnrichedRecord :=
  { latitude := 1, longitude := -1, timestamp := 0, fetch_time := "t4"
    altitude_km := 408, velocity_km_s := 0, orbit_phase := OrbitPhase.UNKNOWN
    distance_to_paris_km := 0 }

theorem hemisphere_classification_witness :
    (process_stream_record recW).hemisphere_ns = HemisphereNS.North ∧
    (process_stream_record recW).hemisphere_ew = HemisphereEW.West :=
  ⟨(hemisphere_classification recW).1.mpr (by norm_num [recW]),
   (hemisphere_classification recW).2.2.2.mpr (by norm_num [recW])⟩

/-- Claim C9: enrichment is a deterministic pure function of the current
and prior samples — two fetched samples agreeing on latitude, longitude
and event time receive identical derived fields whatever their wall-clock
bookkeeping, and the generator step's outcome (written contents, stored
state, counter) does not depend on the wall-clock string used for the
filename. -/
theorem enrichment_deterministic (plat plon : ℝ) (prev : Option EnrichedRecord)
    (pos1 pos2 : RawPosition) :
    (pos1.latitude = pos2.latitude → pos1.longitude = pos2.longitude →
      pos1.timestamp = pos2.timestamp →
      (enrich plat plon prev pos1).velocity_km_s = (enrich plat plon prev pos2).velocity_km_s ∧
      (enrich plat plon prev pos1).orbit_phase = (enrich plat plon prev pos2).orbit_phase ∧
      (enrich plat plon prev pos1).distance_to_paris_km =
        (enrich plat plon prev pos2).distance_to_paris_km ∧
      (process_stream_record (enrich plat plon prev pos1)).hemisphere_ns =
        (process_stream_record (enrich plat plon prev pos2)).hemisphere_ns ∧
      (process_stream_record (enrich plat plon prev pos1)).hemisphere_ew =
        (process_stream_record (enrich plat plon prev pos2)).hemisphere_ew) ∧
    (∀ (st : GenState) (now1 now2 : String) (fetched : Option RawPosition),
      (generate_stream_step plat plon st now1 fetched).files.map Prod.snd =
        (generate_stream_step plat plon st now2 fetched).files.map Prod.snd ∧
      (generate_stream_step plat plon st now1 fetched).previous_position =
        (generate_stream_step plat plon st now2 fetched).previous_position ∧
      (generate_stream_step plat plon st now1 fetched).data_points =
        (generate_stream_step plat plon st now2 fetched).data_points) := by
  constructor
  · intro h1 h2 h3
    refine ⟨?_, ?_, ?_, ?_, ?_⟩ <;>
      simp [enrich, process_stream_record, h1, h2, h3]
  · intro st now1 now2 fetched
    cases fetched <;> simp [generate_stream_step]

/-- A copy of `posW1` that differs only in its wall-clock fetch time. -/
def posW1b : RawPosition :=
  { latitude := 0, longitude := 0, timestamp := 10, fetch_time := "u1", altitude_km := 408 }

theorem enrichment_deterministic_witness :
    (enrich 0 0 none posW1).velocity_km_s = (enrich 0 0 none posW1b).velocity_km_s ∧
    (enrich 0 0 none posW1).orbit_phase = (enrich 0 0 none posW1b).orbit_phase := by
  have h := (enrichment_deterministic 0 0 none posW1 posW1b).1 rfl rfl rfl
  exact ⟨h.1, h.2.1⟩

/-- Claim C10: a poll cycle whose fetch returns `None` leaves the generator
state untouched — no file is written, the previous-position slot is
unchanged and the counter does not advance. -/
theorem generator_none_frame (plat plon : ℝ) (st : GenState) (now : String) :
    (generate_stream_step plat plon st now none).previous_position = st.previous_position ∧
    (generate_stream_step plat plon st now none).data_points = st.data_points ∧
    (generate_stream_step plat plon st now none).files = st.files :=
  ⟨rfl, rfl, rfl⟩

/-! ### Retry and backoff of the fetcher -/

theorem fetch_attempts_all_fail (l : List FetchOutcome)
    (hl : ∀ o ∈ l, o = FetchOutcome.requestError) (a : ℕ) :
    fetch_attempts a l = (none, (List.range (l.length - 1)).map (fun i => 2 ^ (a + i))) := by
  induction l generalizing a with
  | nil => rfl
  | cons o rest ih =>
    have ho : o = FetchOutcome.requestError := hl o (List.mem_cons_self o rest)
    subst ho
    cases rest with
    | nil => rfl
    | cons o2 rest2 =>
      have hrest : ∀ o ∈ o2 :: rest2, o = FetchOutcome.requestError :=
        fun o ho => hl o (List.mem_cons_of_mem _ ho)
      rw [show fetch_attempts a (FetchOutcome.requestError :: o2 :: rest2) =
          ((fetch_attempts (a + 1) (o2 :: rest2)).1,
            2 ^ a :: (fetch_attempts (a + 1) (o2 :: rest2)).2) from rfl,
        ih hrest (a + 1)]
      simp only [List.length_cons, Nat.add_sub_cancel, List.range_succ_eq_map,
        List.map_cons, List.map_map]
      refine Prod.ext rfl ?_
      simp only [Nat.add_zero, List.cons.injEq, true_and]
      refine List.map_congr_left ?_
      intro i _
      simp only [Function.comp_apply]
      refine congrArg _ ?_
      omega

theorem fetch_attempts_success (l1 : List FetchOutcome)
    (hl : ∀ o ∈ l1, o = FetchOutcome.requestError) (a : ℕ)
    (p : RawPosition) (l2 : List FetchOutcome) :
    fetch_attempts a (l1 ++ FetchOutcome.ok p :: l2) =
      (some p, (List.range l1.length).map (fun i => 2 ^ (a + i))) := by
  induction l1 generalizing a with
  | nil => rfl
  | cons o rest ih =>
    have ho : o = FetchOutcome.requestError := hl o (List.mem_cons_self o rest)
    subst ho
    have hrest : ∀ o ∈ rest, o = FetchOutcome.requestError :=
      fun o ho => hl o (List.mem_cons_of_mem _ ho)
    have hne : ((rest ++ FetchOutcome.ok p :: l2).isEmpty) = false := by
      cases rest <;> rfl
    rw [List.cons_append,
      show fetch_attempts a (FetchOutcome.requestError :: (rest ++ FetchOutcome.ok p :: l2)) =
        if (rest ++ FetchOutcome.ok p :: l2).isEmpty then (none, [])
        else ((fetch_attempts (a + 1) (rest ++ FetchOutcome.ok p :: l2)).1,
          2 ^ a :: (fetch_attempts (a + 1) (rest ++ FetchOutcome.ok p :: l2)).2) from rfl,
      hne]
    simp only [Bool.false_eq_true, if_false, ih hrest (a + 1)]
    refine Prod.ext rfl ?_
    simp only [List.length_cons, List.range_succ_eq_map, List.map_cons, List.map_map]
    simp only [Nat.add_zero, List.cons.injEq, true_and]
    refine List.map_congr_left ?_
    intro i _
    simp only [Function.comp_apply]
    refine congrArg _ ?_
    omega

/-- Claim C7: the fetcher retries transient request failures up to
`max_retries` attempts, sleeping `2 ** attempt` seconds between
consecutive attempts, and returns `None` for the poll cycle once all
attempts fail; if attempt `k` succeeds after `k` transient failures, the
sample is returned after exactly the backoff sleeps `2^0, …, 2^(k-1)`. -/
theorem fetch_retry_backoff (n : ℕ) (oracle : ℕ → FetchOutcome) :
    ((∀ i, i < n → oracle i = FetchOutcome.requestError) →
      fetch_position n oracle = (none, (List.range (n - 1)).map (fun i => 2 ^ i))) ∧
    (∀ (k : ℕ) (p : RawPosition), k < n →
      (∀ i, i < k → oracle i = FetchOutcome.requestError) →
      oracle k = FetchOutcome.ok p →
      fetch_position n oracle = (some p, (List.range k).map (fun i => 2 ^ i))) := by
  constructor
  · intro h
    have hall : ∀ o ∈ (List.range n).map oracle, o = FetchOutcome.requestError := by
      intro o ho
      obtain ⟨i, hi, rfl⟩ := List.mem_map.mp ho
      exact h i (List.mem_range.mp hi)
    rw [fetch_position, fetch_attempts_all_fail _ hall 0]
    simp
  · intro k p hk hfail hok
    obtain ⟨m, rfl⟩ : ∃ m, n = k + 1 + m :=
      ⟨n - (k + 1), by omega⟩
    rw [fetch_position, show k + 1 + m = k + (1 + m) by omega, List.range_add,
      List.map_append]
    have hsplit : (List.range (1 + m)).map (fun i => oracle (k + i)) =
        FetchOutcome.ok p :: (List.range m).map (fun i => oracle (k + 1 + i)) := by
      rw [show 1 + m = m + 1 by omega, List.range_succ_eq_map]
      simp only [List.map_cons, Nat.add_zero, hok, List.map_map]
      refine congrArg _ ?_
      refine List.map_congr_left ?_
      intro i _
      simp only [Function.comp_apply]
      refine congrArg _ ?_
      omega
    have hfail' : ∀ o ∈ (List.range k).map oracle, o = FetchOutcome.requestError := by
      intro o ho
      obtain ⟨i, hi, rfl⟩ := List.mem_map.mp ho
      exact hfail i (List.mem_range.mp hi)
    rw [List.map_map]
    rw [show (List.range (1 + m)).map (oracle ∘ (fun i => k + i)) =
        (List.range (1 + m)).map (fun i => oracle (k + i)) from rfl, hsplit,
      fetch_attempts_success _ hfail' 0]
    simp

theorem fetch_retry_backoff_witness :
    fetch_position 3 (fun _ => FetchOutcome.requestError) = (none, [1, 2]) ∧
    fetch_position 3
      (fun i => if i < 2 then FetchOutcome.requestError else FetchOutcome.ok posW1) =
      (some posW1, [1, 2]) := by
  constructor
  · rw [(fetch_retry_backoff 3 (fun _ => FetchOutcome.requestError)).1 (fun i _ => rfl)]
    rfl
  · rw [(fetch_retry_backoff 3 _).2 2 posW1 (by decide)
      (fun i hi => by simp [hi]) (by simp)]
    rfl

/-! ### Aggregator invariants -/

theorem mem_keys_updateAccums {l : List (ℤ × Accum)} {k : ℤ} {e : Ev} {x : ℤ}
    (hx : x ∈ (updateAccums l k e).map Prod.fst) :
    x ∈ l.map Prod.fst ∨ x = k := by
  induction l with
  | nil =>
    simp only [updateAccums, List.map_cons, List.map_nil, List.mem_singleton] at hx
    exact Or.inr hx
  | cons p rest ih =>
    obtain ⟨k0, a⟩ := p
    simp only [updateAccums] at hx
    by_cases h : k0 = k
    · rw [if_pos h] at hx
      simp only [List.map_cons, List.mem_cons] at hx ⊢
      tauto
    · rw [if_neg h] at hx
      simp only [List.map_cons, List.mem_cons] at hx ⊢
      rcases hx with hx | hx
      · tauto
      · rcases ih hx with h2 | h2 <;> tauto

theorem keys_updateAccums_nodup {l : List (ℤ × Accum)} {k : ℤ} {e : Ev}
    (h : (l.map Prod.fst).Nodup) :
    ((updateAccums l k e).map Prod.fst).Nodup := by
  induction l with
  | nil => simp [updateAccums]
  | cons p rest ih =>
    obtain ⟨k0, a⟩ := p
    simp only [List.map_cons, List.nodup_cons] at h
    simp only [updateAccums]
    by_cases hk : k0 = k
    · rw [if_pos hk]
      simp only [List.map_cons, List.nodup_cons]
      exact ⟨h.1, h.2⟩
    · rw [if_neg hk]
      simp only [List.map_cons, List.nodup_cons]
      refine ⟨?_, ih h.2⟩
      intro hmem
      rcases mem_keys_updateAccums hmem with h2 | h2
      · exact h.1 h2
      · exact hk h2

theorem mem_keys_stepAccums {s : AggState} {e : Ev} {x : ℤ}
    (hx : x ∈ (stepAccums s e).map Prod.fst) :
    x ∈ s.accums.map Prod.fst ∨
      (x = windowStart e.event_time ∧
        ¬ (windowStart e.event_time + 60 ≤ newMax s e.event_time - 10)) := by
  unfold stepAccums at hx
  by_cases h : windowStart e.event_time + 60 ≤ newMax s e.event_time - 10
  · rw [if_pos h] at hx
    exact Or.inl hx
  · rw [if_neg h] at hx
    rcases mem_keys_updateAccums hx with h2 | h2
    · exact Or.inl h2
    · exact Or.inr ⟨h2, h⟩

theorem keys_stepAccums_nodup {s : AggState} {e : Ev}
    (h : (s.accums.map Prod.fst).Nodup) :
    ((stepAccums s e).map Prod.fst).Nodup := by
  unfold stepAccums
  by_cases hc : windowStart e.event_time + 60 ≤ newMax s e.event_time - 10
  · rw [if_pos hc]; exact h
  · rw [if_neg hc]; exact keys_updateAccums_nodup h

theorem stepAgg_maxSeen (s : AggState) (e : Ev) :
    (stepAgg s e).1.maxSeen = some (newMax s e.event_time) := rfl

theorem newMax_ge {s : AggState} {m : ℤ} (t : ℤ) (h : s.maxSeen = some m) :
    m ≤ newMax s t := by
  simp [newMax, h]

theorem stepAgg_out_keys_eq (s : AggState) (e : Ev) :
    (stepAgg s e).2.map (fun w => w.window_start) =
      ((stepAccums s e).filter
        (fun p => decide (p.1 + 60 ≤ newMax s e.event_time - 10))).map Prod.fst := by
  show ((_ : List (ℤ × Accum)).map _).map _ = _
  rw [List.map_map]
  rfl

theorem stepAgg_out_key_closed {s : AggState} {e : Ev} {x : ℤ}
    (hx : x ∈ (stepAgg s e).2.map (fun w => w.window_start)) :
    x ∈ (stepAccums s e).map Prod.fst ∧ x + 60 ≤ newMax s e.event_time - 10 := by
  rw [stepAgg_out_keys_eq] at hx
  obtain ⟨p, hp, rfl⟩ := List.mem_map.mp hx
  have hp2 := List.mem_filter.mp hp
  exact ⟨List.mem_map.mpr ⟨p, hp2.1, rfl⟩, of_decide_eq_true hp2.2⟩

theorem stepAgg_out_mem {s : AggState} {e : Ev} {w : WindowStats}
    (hw : w ∈ (stepAgg s e).2) :
    w.window_start + 60 ≤ newMax s e.event_time - 10 ∧
      w.window_end = w.window_start + 60 := by
  obtain ⟨p, hp, rfl⟩ := List.mem_map.mp hw
  have hp2 := List.mem_filter.mp hp
  exact ⟨of_decide_eq_true hp2.2, rfl⟩

theorem stepAgg_inv {s : AggState} {e : Ev} (h : AggInv s) :
    AggInv (stepAgg s e).1 := by
  constructor
  · exact ((List.filter_sublist _).map Prod.fst).nodup (keys_stepAccums_nodup h.1)
  · intro k hk m hm
    obtain ⟨p, hp, rfl⟩ := List.mem_map.mp hk
    have hp2 := List.mem_filter.mp hp
    have hopen : ¬ (p.1 + 60 ≤ newMax s e.event_time - 10) := of_decide_eq_true hp2.2
    rw [stepAgg_maxSeen] at hm
    cases hm
    omega

theorem runAgg_maxSeen_mono (evs : List Ev) :
    ∀ (s : AggState) (m : ℤ), s.maxSeen = some m →
      ∃ mf : ℤ, (runAgg s evs).1.maxSeen = some mf ∧ m ≤ mf := by
  induction evs with
  | nil => exact fun s m h => ⟨m, h, le_refl m⟩
  | cons e rest ih =>
    intro s m h
    obtain ⟨mf, hmf, hle⟩ := ih (stepAgg s e).1 (newMax s e.event_time) (stepAgg_maxSeen s e)
    exact ⟨mf, hmf, le_trans (newMax_ge e.event_time h) hle⟩

theorem runAgg_out_future_open (evs : List Ev) :
    ∀ (s : AggState), AggInv s →
      ∀ x ∈ (runAgg s evs).2.map (fun w => w.window_start),
        ∀ m : ℤ, s.maxSeen = some m → m - 10 < x + 60 := by
  induction evs with
  | nil => intro s _ x hx; simp [runAgg] at hx
  | cons e rest ih =>
    intro s hs x hx m hm
    rw [show (runAgg s (e :: rest)).2 =
      (stepAgg s e).2 ++ (runAgg (stepAgg s e).1 rest).2 from rfl,
      List.map_append] at hx
    rcases List.mem_append.mp hx with hx | hx
    · obtain ⟨hmem, _⟩ := stepAgg_out_key_closed hx
      rcases mem_keys_stepAccums hmem with h2 | h2
      · exact hs.2 x h2 m hm
      · have := newMax_ge (s := s) e.event_time hm
        omega
    · have h1 := ih (stepAgg s e).1 (stepAgg_inv hs) x hx
        (newMax s e.event_time) (stepAgg_maxSeen s e)
      have h2 := newMax_ge (s := s) e.event_time hm
      omega

theorem runAgg_out_closed (evs : List Ev) :
    ∀ (s : AggState), ∀ w ∈ (runAgg s evs).2,
      ∃ mf : ℤ, (runAgg s evs).1.maxSeen = some mf ∧ w.window_start + 60 ≤ mf - 10 := by
  induction evs with
  | nil => intro s w hw; simp [runAgg] at hw
  | cons e rest ih =>
    intro s w hw
    rw [show (runAgg s (e :: rest)).2 =
      (stepAgg s e).2 ++ (runAgg (stepAgg s e).1 rest).2 from rfl] at hw
    rw [show (runAgg s (e :: rest)).1 = (runAgg (stepAgg s e).1 rest).1 from rfl]
    rcases List.mem_append.mp hw with hw | hw
    · obtain ⟨hclosed, _⟩ := stepAgg_out_mem hw
      obtain ⟨mf, hmf, hle⟩ := runAgg_maxSeen_mono rest (stepAgg s e).1
        (newMax s e.event_time) (stepAgg_maxSeen s e)
      exact ⟨mf, hmf, by omega⟩
    · exact ih (stepAgg s e).1 w hw

theorem runAgg_out_window_end (evs : List Ev) :
    ∀ (s : AggState), ∀ w ∈ (runAgg s evs).2, w.window_end = w.window_start + 60 := by
  induction evs with
  | nil => intro s w hw; simp [runAgg] at hw
  | cons e rest ih =>
    intro s w hw
    rw [show (runAgg s (e :: rest)).2 =
      (stepAgg s e).2 ++ (runAgg (stepAgg s e).1 rest).2 from rfl] at hw
    rcases List.mem_append.mp hw with hw | hw
    · exact (stepAgg_out_mem hw).2
    · exact ih (stepAgg s e).1 w hw

theorem runAgg_out_nodup (evs : List Ev) :
    ∀ (s : AggState), AggInv s →
      ((runAgg s evs).2.map (fun w => w.window_start)).Nodup := by
  induction evs with
  | nil => intro s _; simp [runAgg]
  | cons e rest ih =>
    intro s hs
    rw [show (runAgg s (e :: rest)).2 =
      (stepAgg s e).2 ++ (runAgg (stepAgg s e).1 rest).2 from rfl,
      List.map_append, List.nodup_append]
    refine ⟨?_, ih (stepAgg s e).1 (stepAgg_inv hs), ?_⟩
    · rw [stepAgg_out_keys_eq]
      exact ((List.filter_sublist _).map Prod.fst).nodup (keys_stepAccums_nodup hs.1)
    · intro x hx1 hx2
      have h1 := (stepAgg_out_key_closed hx1).2
      have h2 := runAgg_out_future_open rest (stepAgg s e).1 (stepAgg_inv hs) x hx2
        (newMax s e.event_time) (stepAgg_maxSeen s e)
      omega

theorem initAgg_inv : AggInv initAgg := by
  constructor
  · simp [initAgg]
  · intro k hk
    simp [initAgg] at hk

/-- Claim C1: over any trace of processed records, every closed window's
statistics row is emitted at most once (no window start repeats in the
appended output), and a row is emitted only once the watermark — the
maximum observed event time minus the 10-second allowed lateness — has
reached the window's end; windows are 60-second tumbling windows over
event time. -/
theorem window_emission_correct (evs : List Ev) :
    (((runAgg initAgg evs).2.map (fun w => w.window_start)).Nodup) ∧
    (∀ l1 l2 : List Ev, evs = l1 ++ l2 →
      ∀ w ∈ (runAgg initAgg l1).2,
        ∃ m : ℤ, (runAgg initAgg l1).1.maxSeen = some m ∧
          w.window_start + 60 ≤ m - 10) ∧
    (∀ w ∈ (runAgg initAgg evs).2, w.window_end = w.window_start + 60) ∧
    (∀ t : ℤ, windowStart t ≤ t ∧ t < windowStart t + 60 ∧ 60 ∣ windowStart t) := by
  refine ⟨runAgg_out_nodup evs initAgg initAgg_inv, ?_, runAgg_out_window_end evs initAgg, ?_⟩
  · intro l1 l2 _ w hw
    exact runAgg_out_closed l1 initAgg w hw
  · intro t
    unfold windowStart
    refine ⟨?_, ?_, ?_⟩
    · omega
    · omega
    · exact Dvd.intro_left (t / 60) rfl

/-- The first record of the witness trace, at event time 0. -/
def evA : Ev := ⟨0, 0, 0, 0⟩

/-- The second record of the witness trace, at event time 70: it advances
the watermark to 60 and thereby closes the window `[0, 60)`. -/
def evB : Ev := ⟨70, 0, 0, 0⟩

/-- The witness trace. -/
def evTrace : List Ev := [evA, evB]

theorem window_emission_correct_witness :
    ((runAgg initAgg evTrace).2.map (fun w => w.window_start)).Nodup ∧
    (∃ m : ℤ, (runAgg initAgg evTrace).1.maxSeen = some m ∧ 0 + 60 ≤ m - 10) := by
  refine ⟨(window_emission_correct evTrace).1, ?_⟩
  exact (window_emission_correct evTrace).2.1 evTrace [] (by simp)
    (mkStats 0 (initAccum evA)) (List.mem_singleton.mpr rfl)

end ISS
